import Mathlib

/-!
# Verification of the dsrt-engine scene graph and renderer

This file gives a shallow embedding, in Lean 4, of the core of the
dsrt-engine JavaScript 3D engine: the scene-graph transform classes
(two revisions of Object3D), the Scene uuid registry, the Geometry
constructor, the ShaderMaterial compile path, and the WebGLRenderer
resource cache / draw pipeline.  The theorems at the end of the file
settle the behavioural claims about that code.

Modelling conventions:
* 4x4 float matrices are abstracted to a type parameter M, together
  with an abstract multiplication mul : M -> M -> M standing for
  Matrix4.multiplyMatrices, and an abstract compose : T -> M standing
  for Matrix4.compose(position, quaternion, scale) applied to the
  position/quaternion/scale triple (of abstract type T).  None of the
  properties below depend on the numeric content of a matrix, only on
  which matrix product ends up stored where, so this abstraction is
  exact.
* JavaScript object identity is modelled either by immutable trees
  (when parent pointers are not consulted by the modelled code path)
  or by an explicit heap: an association list from a numeric object id
  to a record of fields (when parent pointers are walked, as in the
  cycle check of Object3D.add v1.1).
* Code that throws a JavaScript exception is modelled in the Except
  monad; all other code is pure state passing.
-/

namespace DSRT

/-! ## Object3D, revision src/src/core/Object3D.js (v1.0, unconditional recompute)

The node carries position/rotation/scale (abstracted as one field trs),
a local matrix, a world matrix, and a children list.  This revision has
no dirty flag of any kind.
-/

/-- Scene-graph node of the src/src/core/Object3D.js revision: transform
source data trs, local matrix, world matrix, children. -/
inductive Obj (T M : Type) : Type where
  | mk (trs : T) (matrix : M) (matrixWorld : M) (children : List (Obj T M))

/-- Field accessor: position/quaternion/scale triple. -/
def Obj.trs {T M : Type} : Obj T M → T
  | .mk t _ _ _ => t

/-- Field accessor: local matrix (this.matrix). -/
def Obj.matrix {T M : Type} : Obj T M → M
  | .mk _ m _ _ => m

/-- Field accessor: world matrix (this.matrixWorld). -/
def Obj.matrixWorld {T M : Type} : Obj T M → M
  | .mk _ _ w _ => w

/-- Field accessor: children list. -/
def Obj.children {T M : Type} : Obj T M → List (Obj T M)
  | .mk _ _ _ c => c

/-- Object3D.updateMatrixWorld of src/src/core/Object3D.js (lines 186-197):
updateMatrix() recomputes this.matrix from position/quaternion/scale;
then matrixWorld := matrix when parent is null, else
parent.matrixWorld * matrix; then every child is visited with the same
force flag.  The force parameter is received and passed on but never
read: recomputation is unconditional.  The parent world matrix is
passed explicitly (none at the root). -/
def Obj.updateMatrixWorld {T M : Type} (compose : T → M) (mul : M → M → M)
    (parentWorld : Option M) (force : Bool) : Obj T M → Obj T M
  | .mk trs _ _ cs =>
    let m := compose trs
    let w := match parentWorld with
      | none => m
      | some pw => mul pw m
    .mk trs m w (cs.attach.map fun c =>
      Obj.updateMatrixWorld compose mul (some w) force c.1)
termination_by o => sizeOf o
decreasing_by
  have h := List.sizeOf_lt_of_mem c.2
  simp only [Obj.mk.sizeOf_spec]
  omega

/-- Any Bool-valued check mapped over List.attach agrees with the same
check over the bare list. -/
theorem list_attach_all {α : Type} (l : List α) (f : α → Bool) :
    (l.attach.all fun c => f c.1) = l.all f := by
  rw [List.all_eq, List.all_eq, decide_eq_decide]
  constructor
  · intro h c hc
    exact h ⟨c, hc⟩ (List.mem_attach l _)
  · intro h x _
    exact h x.1 x.2

/-- Unfolding equation for Obj.updateMatrixWorld without List.attach. -/
theorem Obj.updateMatrixWorld_eq {T M : Type} (compose : T → M) (mul : M → M → M)
    (parentWorld : Option M) (force : Bool) (trs : T) (mat w : M)
    (cs : List (Obj T M)) :
    Obj.updateMatrixWorld compose mul parentWorld force (.mk trs mat w cs) =
      .mk trs (compose trs)
        (match parentWorld with
          | none => compose trs
          | some pw => mul pw (compose trs))
        (cs.map (Obj.updateMatrixWorld compose mul
          (some (match parentWorld with
            | none => compose trs
            | some pw => mul pw (compose trs))) force)) := by
  conv_lhs => rw [Obj.updateMatrixWorld.eq_def]
  simp only [List.attach_map_val]

/-- Structural induction principle for Obj that provides the inductive
hypothesis for every member of the children list. -/
theorem Obj.inductionOn {T M : Type} {P : Obj T M → Prop}
    (h : ∀ trs m w cs, (∀ c ∈ cs, P c) → P (.mk trs m w cs)) :
    ∀ o, P o
  | .mk trs m w cs => h trs m w cs (fun c hc => Obj.inductionOn h c)
termination_by o => sizeOf o
decreasing_by
  have h2 := List.sizeOf_lt_of_mem hc
  simp only [Obj.mk.sizeOf_spec]
  omega

/-- The parent/child world-matrix link: every child c of every node n
in the tree satisfies c.matrixWorld = mul n.matrixWorld c.matrix. -/
def Obj.linksOK {T M : Type} [DecidableEq M] (mul : M → M → M) : Obj T M → Bool
  | .mk _ _ w cs => cs.attach.all fun c =>
      decide (c.1.matrixWorld = mul w c.1.matrix) && c.1.linksOK mul
termination_by o => sizeOf o
decreasing_by
  have h := List.sizeOf_lt_of_mem c.2
  simp only [Obj.mk.sizeOf_spec]
  omega

/-- Unfolding equation for Obj.linksOK without List.attach. -/
theorem Obj.linksOK_eq {T M : Type} [DecidableEq M] (mul : M → M → M)
    (trs : T) (m w : M) (cs : List (Obj T M)) :
    Obj.linksOK mul (.mk trs m w cs) =
      cs.all fun c => decide (c.matrixWorld = mul w c.matrix) && c.linksOK mul := by
  conv_lhs => rw [Obj.linksOK.eq_def]
  exact list_attach_all cs
    (fun c => decide (c.matrixWorld = mul w c.matrix) && c.linksOK mul)

/-- After updateMatrixWorld, the root's world matrix is the expected
product with the given parent world matrix (or the bare local matrix at
the true root). -/
theorem Obj.updateMatrixWorld_world {T M : Type} (compose : T → M)
    (mul : M → M → M) (parentWorld : Option M) (force : Bool) (o : Obj T M) :
    (Obj.updateMatrixWorld compose mul parentWorld force o).matrixWorld =
      match parentWorld with
      | none => (Obj.updateMatrixWorld compose mul parentWorld force o).matrix
      | some pw => mul pw (Obj.updateMatrixWorld compose mul parentWorld force o).matrix := by
  cases o with
  | mk trs m w cs =>
    rw [Obj.updateMatrixWorld_eq]
    cases parentWorld <;> simp [Obj.matrixWorld, Obj.matrix]

/-- After updateMatrixWorld on any node, every parent/child pair inside
the resulting tree satisfies the world-matrix composition link. -/
theorem Obj.updateMatrixWorld_linksOK {T M : Type} [DecidableEq M]
    (compose : T → M) (mul : M → M → M) (force : Bool) (o : Obj T M) :
    ∀ parentWorld,
      Obj.linksOK mul (Obj.updateMatrixWorld compose mul parentWorld force o) = true := by
  induction o using Obj.inductionOn with
  | h trs m w cs ih =>
    intro parentWorld
    rw [Obj.updateMatrixWorld_eq, Obj.linksOK_eq, List.all_eq_true]
    intro c hc
    rw [List.mem_map] at hc
    obtain ⟨c0, hc0, rfl⟩ := hc
    rw [Bool.and_eq_true, decide_eq_true_iff]
    constructor
    · exact Obj.updateMatrixWorld_world compose mul _ force c0
    · exact ih c0 hc0 _

/-! ## Object3D, revision src/unnamed/part_002 (v1.1, dirty-flag variant)

This revision carries matrixAutoUpdate / matrixWorldAutoUpdate flags
(both default true), the matrixWorldNeedsUpdate dirty flag and the
dirtyTransform change-tracking flag, and recomputes the world matrix
only when dirty or forced, propagating force = true to the children
once it recomputed.
-/

/-- Scene-graph node of the src/unnamed/part_002 Object3D revision. -/
inductive Obj2 (T M : Type) : Type where
  | mk (trs : T) (matrix : M) (matrixWorld : M)
       (matrixAutoUpdate matrixWorldAutoUpdate : Bool)
       (matrixWorldNeedsUpdate dirtyTransform : Bool)
       (children : List (Obj2 T M))

/-- Field accessor: local matrix. -/
def Obj2.matrix {T M : Type} : Obj2 T M → M
  | .mk _ m _ _ _ _ _ _ => m

/-- Field accessor: world matrix. -/
def Obj2.matrixWorld {T M : Type} : Obj2 T M → M
  | .mk _ _ w _ _ _ _ _ => w

/-- Field accessor: matrixWorldNeedsUpdate dirty flag. -/
def Obj2.matrixWorldNeedsUpdate {T M : Type} : Obj2 T M → Bool
  | .mk _ _ _ _ _ n _ _ => n

/-- Field accessor: children list. -/
def Obj2.children {T M : Type} : Obj2 T M → List (Obj2 T M)
  | .mk _ _ _ _ _ _ _ c => c

/-- All nodes of the tree have matrixWorldAutoUpdate set (the
constructor default Object3D.DEFAULT_MATRIX_WORLD_AUTO_UPDATE = true). -/
def Obj2.allWorldAuto {T M : Type} : Obj2 T M → Bool
  | .mk _ _ _ _ mwAuto _ _ cs => mwAuto && cs.attach.all fun c => c.1.allWorldAuto
termination_by o => sizeOf o
decreasing_by
  have h := List.sizeOf_lt_of_mem c.2
  simp only [Obj2.mk.sizeOf_spec]
  omega

/-- Unfolding equation for Obj2.allWorldAuto without List.attach. -/
theorem Obj2.allWorldAuto_eq {T M : Type} (trs : T) (m w : M)
    (mAuto mwAuto nu dt : Bool) (cs : List (Obj2 T M)) :
    Obj2.allWorldAuto (.mk trs m w mAuto mwAuto nu dt cs) =
      (mwAuto && cs.all fun c => c.allWorldAuto) := by
  conv_lhs => rw [Obj2.allWorldAuto.eq_def]
  show (mwAuto && cs.attach.all fun c => c.1.allWorldAuto) = _
  rw [list_attach_all cs (fun c => c.allWorldAuto)]

/-- Object3D.updateMatrixWorld of src/unnamed/part_002 (lines 326-352):
if matrixAutoUpdate, updateMatrix() recomputes the local matrix from
position/quaternion/scale and sets matrixWorldNeedsUpdate and
dirtyTransform; then, only when matrixWorldNeedsUpdate or force, and
matrixWorldAutoUpdate allows it, matrixWorld := parent.matrixWorld *
matrix (or matrix at the root); on that recompute path the dirty flag
is cleared and force becomes true for the children; every child then
runs with the (possibly updated) parent world matrix; finally
dirtyTransform is cleared when matrixWorldNeedsUpdate ended up false. -/
def Obj2.updateMatrixWorld {T M : Type} (compose : T → M) (mul : M → M → M)
    (parentWorld : Option M) (force : Bool) : Obj2 T M → Obj2 T M
  | .mk trs mat w mAuto mwAuto needsU dirty cs =>
    let mat1 := if mAuto then compose trs else mat
    let needsU1 := if mAuto then true else needsU
    let dirty1 := if mAuto then true else dirty
    let cond := needsU1 || force
    let w1 := if cond && mwAuto then
        (match parentWorld with
          | none => mat1
          | some pw => mul pw mat1)
      else w
    let needsU2 := if cond then false else needsU1
    let force1 := if cond then true else force
    let cs1 := cs.attach.map fun c =>
      Obj2.updateMatrixWorld compose mul (some w1) force1 c.1
    let dirty2 := if needsU2 then dirty1 else false
    .mk trs mat1 w1 mAuto mwAuto needsU2 dirty2 cs1
termination_by o => sizeOf o
decreasing_by
  have h := List.sizeOf_lt_of_mem c.2
  simp only [Obj2.mk.sizeOf_spec]
  omega

/-- Unfolding equation for Obj2.updateMatrixWorld without List.attach. -/
theorem Obj2.updateMatrixWorld_eq2 {T M : Type} (compose : T → M)
    (mul : M → M → M) (parentWorld : Option M) (force : Bool) (trs : T)
    (mat w : M) (mAuto mwAuto needsU dirty : Bool) (cs : List (Obj2 T M)) :
    Obj2.updateMatrixWorld compose mul parentWorld force
        (.mk trs mat w mAuto mwAuto needsU dirty cs) =
      (let mat1 := if mAuto then compose trs else mat
       let needsU1 := if mAuto then true else needsU
       let dirty1 := if mAuto then true else dirty
       let cond := needsU1 || force
       let w1 := if cond && mwAuto then
           (match parentWorld with
             | none => mat1
             | some pw => mul pw mat1)
         else w
       let needsU2 := if cond then false else needsU1
       let force1 := if cond then true else force
       let cs1 := cs.map (Obj2.updateMatrixWorld compose mul (some w1) force1)
       let dirty2 := if needsU2 then dirty1 else false
       .mk trs mat1 w1 mAuto mwAuto needsU2 dirty2 cs1) := by
  conv_lhs => rw [Obj2.updateMatrixWorld.eq_def]
  simp only [List.attach_map_val]

/-- Structural induction principle for Obj2. -/
theorem Obj2.inductionOn2 {T M : Type} {P : Obj2 T M → Prop}
    (h : ∀ trs m w mAuto mwAuto nu dt cs, (∀ c ∈ cs, P c) →
      P (.mk trs m w mAuto mwAuto nu dt cs)) :
    ∀ o, P o
  | .mk trs m w mAuto mwAuto nu dt cs =>
    h trs m w mAuto mwAuto nu dt cs (fun c hc => Obj2.inductionOn2 h c)
termination_by o => sizeOf o
decreasing_by
  have h2 := List.sizeOf_lt_of_mem hc
  simp only [Obj2.mk.sizeOf_spec]
  omega

/-- The parent/child world-matrix link for Obj2 trees. -/
def Obj2.linksOK {T M : Type} [DecidableEq M] (mul : M → M → M) : Obj2 T M → Bool
  | .mk _ _ w _ _ _ _ cs => cs.attach.all fun c =>
      decide (c.1.matrixWorld = mul w c.1.matrix) && c.1.linksOK mul
termination_by o => sizeOf o
decreasing_by
  have h := List.sizeOf_lt_of_mem c.2
  simp only [Obj2.mk.sizeOf_spec]
  omega

/-- Unfolding equation for Obj2.linksOK without List.attach. -/
theorem Obj2.linksOK_eq2 {T M : Type} [DecidableEq M] (mul : M → M → M)
    (trs : T) (m w : M) (mAuto mwAuto nu dt : Bool) (cs : List (Obj2 T M)) :
    Obj2.linksOK mul (.mk trs m w mAuto mwAuto nu dt cs) =
      cs.all fun c => decide (c.matrixWorld = mul w c.matrix) && c.linksOK mul := by
  conv_lhs => rw [Obj2.linksOK.eq_def]
  exact list_attach_all cs
    (fun c => decide (c.matrixWorld = mul w c.matrix) && c.linksOK mul)

/-- Accessor form of Obj2.linksOK_eq2. -/
theorem Obj2.linksOK_spec {T M : Type} [DecidableEq M] (mul : M → M → M)
    (o : Obj2 T M) :
    Obj2.linksOK mul o =
      o.children.all fun c =>
        decide (c.matrixWorld = mul o.matrixWorld c.matrix) && c.linksOK mul := by
  cases o with
  | mk trs m w mAuto mwAuto nu dt cs =>
    rw [Obj2.linksOK_eq2]
    rfl

/-- When force is true and all nodes have matrixWorldAutoUpdate, the v1.1
update recomputes the world matrix of the root as the product with the
parent world matrix (or the bare local matrix at the true root). -/
theorem Obj2.updateMatrixWorld_world2 {T M : Type} (compose : T → M)
    (mul : M → M → M) (parentWorld : Option M) (o : Obj2 T M)
    (hauto : o.allWorldAuto = true) :
    (Obj2.updateMatrixWorld compose mul parentWorld true o).matrixWorld =
      match parentWorld with
      | none => (Obj2.updateMatrixWorld compose mul parentWorld true o).matrix
      | some pw => mul pw (Obj2.updateMatrixWorld compose mul parentWorld true o).matrix := by
  cases o with
  | mk trs m w mAuto mwAuto nu dt cs =>
    rw [Obj2.allWorldAuto_eq, Bool.and_eq_true] at hauto
    rw [Obj2.updateMatrixWorld_eq2]
    simp only [hauto.1, Bool.or_true, Bool.true_and, if_true]
    cases parentWorld <;> cases mAuto <;> simp [Obj2.matrixWorld, Obj2.matrix]

/-- Children of the node are recursively updated with force = true when
the incoming force flag is true. -/
theorem Obj2.updateMatrixWorld_children_force {T M : Type} (compose : T → M)
    (mul : M → M → M) (parentWorld : Option M) (trs : T) (mat w : M)
    (mAuto mwAuto needsU dirty : Bool) (cs : List (Obj2 T M)) :
    (Obj2.updateMatrixWorld compose mul parentWorld true
        (.mk trs mat w mAuto mwAuto needsU dirty cs)).children =
      cs.map (Obj2.updateMatrixWorld compose mul
        (some (Obj2.updateMatrixWorld compose mul parentWorld true
          (.mk trs mat w mAuto mwAuto needsU dirty cs)).matrixWorld) true) := by
  rw [Obj2.updateMatrixWorld_eq2]
  simp [Obj2.children, Obj2.matrixWorld]

/-- After a forced v1.1 update of a tree in which every node has
matrixWorldAutoUpdate (the default), every parent/child pair satisfies
the world-matrix composition link. -/
theorem Obj2.updateMatrixWorld_linksOK2 {T M : Type} [DecidableEq M]
    (compose : T → M) (mul : M → M → M) (o : Obj2 T M)
    (hauto : o.allWorldAuto = true) :
    ∀ parentWorld,
      Obj2.linksOK mul (Obj2.updateMatrixWorld compose mul parentWorld true o) = true := by
  induction o using Obj2.inductionOn2 with
  | h trs m w mAuto mwAuto nu dt cs ih =>
    intro parentWorld
    rw [Obj2.allWorldAuto_eq, Bool.and_eq_true, List.all_eq_true] at hauto
    rw [Obj2.linksOK_spec, Obj2.updateMatrixWorld_children_force, List.all_eq_true]
    intro c hc
    rw [List.mem_map] at hc
    obtain ⟨c0, hc0, rfl⟩ := hc
    rw [Bool.and_eq_true, decide_eq_true_iff]
    refine ⟨?_, ih c0 hc0 (hauto.2 c0 hc0) _⟩
    exact Obj2.updateMatrixWorld_world2 compose mul (some _) c0 (hauto.2 c0 hc0)

/-! ## Heap model for Object3D.add / remove

Object3D.add of the v1.1 revision walks the parent chain
(isDescendantOf) and mutates both the old parent, the child, and the
new parent, so here objects live in an explicit heap: an association
list from object id to a record of the hierarchy-relevant fields.  An
id absent from the heap behaves like the JavaScript null guard. -/

/-- Hierarchy-relevant fields of an Object3D instance. -/
structure ObjRec where
  parent : Option Nat
  children : List Nat
  isObject3D : Bool
deriving DecidableEq

/-- Object heap: association list from object id to its fields. -/
abbrev Heap : Type := List (Nat × ObjRec)

/-- Read an object from the heap. -/
def heapLookup (h : Heap) (i : Nat) : Option ObjRec :=
  ((h : List (Nat × ObjRec)).find? (fun p => p.1 == i)).map (·.2)

/-- Overwrite the fields of object i (no-op when i is not allocated). -/
def heapSet (h : Heap) (i : Nat) (r : ObjRec) : Heap :=
  (h : List (Nat × ObjRec)).map (fun p => if p.1 == i then (i, r) else p)

/-- The parent field of object i. -/
def parentOf (h : Heap) (i : Nat) : Option Nat :=
  match heapLookup h i with
  | none => none
  | some r => r.parent

/-- Object3D.isDescendantOf of src/unnamed/part_002: walks this.parent
upward comparing against the target.  The walk is given fuel (in the
acyclic heaps of interest, fuel = heap size bounds the parent-chain
length). -/
def isDescendantOf (h : Heap) : Nat → Nat → Nat → Bool
  | 0, _, _ => false
  | fuel + 1, me, target =>
    match parentOf h me with
    | none => false
    | some p => p == target || isDescendantOf h fuel p target

/-- Object3D.remove, identical in src/src/core/Object3D.js (lines
230-237) and src/unnamed/part_002: if the object is among this node's
children, null its parent pointer and splice it out of the children
list; otherwise do nothing. -/
def Object3D.removeChild (h : Heap) (thisId objId : Nat) : Heap :=
  match heapLookup h thisId with
  | none => h
  | some thisR =>
    if objId ∈ thisR.children then
      let h1 := match heapLookup h objId with
        | none => h
        | some objR => heapSet h objId { objR with parent := none }
      match heapLookup h1 thisId with
      | none => h1
      | some thisR1 =>
        heapSet h1 thisId { thisR1 with children := thisR1.children.erase objId }
    else h

/-- Object3D.removeFromParent of src/unnamed/part_002: delegate to the
parent's remove when a parent exists. -/
def Object3D.removeFromParent (h : Heap) (objId : Nat) : Heap :=
  match parentOf h objId with
  | none => h
  | some p => Object3D.removeChild h p objId

/-- Object3D.add of src/unnamed/part_002 (lines 215-230): returns this
unchanged when the argument is this itself, is not an Object3D, or is
an ancestor of this (cycle check via isDescendantOf); otherwise
detaches the argument from its previous parent, sets its parent to
this and appends it to this.children. -/
def Object3D.addV11 (h : Heap) (thisId objId : Nat) : Heap :=
  match heapLookup h objId, heapLookup h thisId with
  | some objR, some _ =>
    if objId == thisId || !objR.isObject3D then h
    else if isDescendantOf h ((h : List (Nat × ObjRec)).length) thisId objId then h
    else
      let h1 := Object3D.removeFromParent h objId
      let h2 := match heapLookup h1 objId with
        | none => h1
        | some objR1 => heapSet h1 objId { objR1 with parent := some thisId }
      match heapLookup h2 thisId with
      | none => h2
      | some thisR2 =>
        heapSet h2 thisId { thisR2 with children := thisR2.children ++ [objId] }
  | _, _ => h

/-- Object3D.add of src/src/core/Object3D.js (lines 215-223): throws an
Error when the argument is this itself; otherwise detaches the argument
from its previous parent, sets its parent and appends it to
this.children.  There is no ancestor/cycle check in this revision. -/
def Object3D.addV10 (h : Heap) (thisId objId : Nat) : Except String Heap :=
  if objId == thisId then
    .error "Object3D.add: object cannot be added as a child of itself."
  else
    let h1 := Object3D.removeFromParent h objId
    let h2 := match heapLookup h1 objId with
      | none => h1
      | some objR1 => heapSet h1 objId { objR1 with parent := some thisId }
    .ok (match heapLookup h2 thisId with
      | none => h2
      | some thisR2 =>
        heapSet h2 thisId { thisR2 with children := thisR2.children ++ [objId] })

/-! ## Claims C1, C2, C3 -/

/-- C1: after updateMatrixWorld is invoked on the root of a scene-graph
tree with force = true, every node with a parent has matrixWorld equal
to parent.matrixWorld * matrix, and the parentless root has matrixWorld
equal to its local matrix.  Proved for both Object3D revisions; the
v1.1 (part_002) revision requires its matrixWorldAutoUpdate flags at
their constructor default true. -/
theorem c1_world_matrix_composition {T M : Type} [DecidableEq M]
    (compose : T → M) (mul : M → M → M) (o : Obj T M) (o2 : Obj2 T M)
    (hauto : o2.allWorldAuto = true) :
    ((Obj.updateMatrixWorld compose mul none true o).matrixWorld =
        (Obj.updateMatrixWorld compose mul none true o).matrix ∧
      Obj.linksOK mul (Obj.updateMatrixWorld compose mul none true o) = true) ∧
    ((Obj2.updateMatrixWorld compose mul none true o2).matrixWorld =
        (Obj2.updateMatrixWorld compose mul none true o2).matrix ∧
      Obj2.linksOK mul (Obj2.updateMatrixWorld compose mul none true o2) = true) := by
  refine ⟨⟨?_, ?_⟩, ⟨?_, ?_⟩⟩
  · exact Obj.updateMatrixWorld_world compose mul none true o
  · exact Obj.updateMatrixWorld_linksOK compose mul true o none
  · exact Obj2.updateMatrixWorld_world2 compose mul none o2 hauto
  · exact Obj2.updateMatrixWorld_linksOK2 compose mul o2 hauto none

/-- Witness for C1 at a concrete two-level tree over integer
"matrices". -/
theorem c1_world_matrix_composition_witness :
    Obj2.allWorldAuto
        (Obj2.mk 2 0 0 true true false false
          [Obj2.mk 3 0 0 true true false false []] : Obj2 Int Int) = true ∧
    ((Obj.updateMatrixWorld (fun t : Int => t + 1) (· * ·) none true
          (Obj.mk 2 0 0 [Obj.mk 3 0 0 []])).matrixWorld =
        (Obj.updateMatrixWorld (fun t : Int => t + 1) (· * ·) none true
          (Obj.mk 2 0 0 [Obj.mk 3 0 0 []])).matrix ∧
      Obj.linksOK (· * ·) (Obj.updateMatrixWorld (fun t : Int => t + 1) (· * ·) none true
        (Obj.mk 2 0 0 [Obj.mk 3 0 0 []])) = true) ∧
    ((Obj2.updateMatrixWorld (fun t : Int => t + 1) (· * ·) none true
          (Obj2.mk 2 0 0 true true false false
            [Obj2.mk 3 0 0 true true false false []])).matrixWorld =
        (Obj2.updateMatrixWorld (fun t : Int => t + 1) (· * ·) none true
          (Obj2.mk 2 0 0 true true false false
            [Obj2.mk 3 0 0 true true false false []])).matrix ∧
      Obj2.linksOK (· * ·) (Obj2.updateMatrixWorld (fun t : Int => t + 1) (· * ·) none true
        (Obj2.mk 2 0 0 true true false false
          [Obj2.mk 3 0 0 true true false false []])) = true) := by
  have hauto : Obj2.allWorldAuto
      (Obj2.mk 2 0 0 true true false false
        [Obj2.mk 3 0 0 true true false false []] : Obj2 Int Int) = true := by
    rw [Obj2.allWorldAuto_eq]
    simp [Obj2.allWorldAuto_eq]
  exact ⟨hauto, c1_world_matrix_composition (fun t : Int => t + 1) (· * ·)
    (Obj.mk 2 0 0 [Obj.mk 3 0 0 []])
    (Obj2.mk 2 0 0 true true false false [Obj2.mk 3 0 0 true true false false []])
    hauto⟩

/-- C2 (amended): in the v1.1 (part_002) revision, updateMatrixWorld
recomputes matrixWorld as parent.matrixWorld * matrix only when the
matrixWorldNeedsUpdate dirty flag (as set by the matrixAutoUpdate local
update) or force is set, and once the recompute condition holds the
children are all visited with force = true. -/
theorem c2_conditional_recompute_and_force_propagation {T M : Type}
    (compose : T → M) (mul : M → M → M) (pw : Option M) (force : Bool)
    (trs : T) (mat w : M) (mAuto mwAuto needsU dirty : Bool)
    (cs : List (Obj2 T M)) :
    (((if mAuto then true else needsU) || force) = false →
      (Obj2.updateMatrixWorld compose mul pw force
        (.mk trs mat w mAuto mwAuto needsU dirty cs)).matrixWorld = w) ∧
    (((if mAuto then true else needsU) || force) = true → mwAuto = true →
      (Obj2.updateMatrixWorld compose mul pw force
          (.mk trs mat w mAuto mwAuto needsU dirty cs)).matrixWorld =
        (match pw with
          | none => if mAuto then compose trs else mat
          | some p => mul p (if mAuto then compose trs else mat))) ∧
    (((if mAuto then true else needsU) || force) = true →
      (Obj2.updateMatrixWorld compose mul pw force
          (.mk trs mat w mAuto mwAuto needsU dirty cs)).children =
        cs.map (Obj2.updateMatrixWorld compose mul
          (some (Obj2.updateMatrixWorld compose mul pw force
            (.mk trs mat w mAuto mwAuto needsU dirty cs)).matrixWorld) true)) := by
  refine ⟨?_, ?_, ?_⟩
  · intro hcond
    rw [Obj2.updateMatrixWorld_eq2]
    cases mAuto <;> cases needsU <;> cases force <;>
      simp_all [Obj2.matrixWorld]
  · intro hcond hwa
    rw [Obj2.updateMatrixWorld_eq2]
    cases mAuto <;> cases needsU <;> cases force <;> cases pw <;>
      simp_all [Obj2.matrixWorld]
  · intro hcond
    rw [Obj2.updateMatrixWorld_eq2]
    cases mAuto <;> cases needsU <;> cases force <;>
      simp_all [Obj2.matrixWorld, Obj2.children]

/-- Witness for C2 at a concrete dirty node with a parent world matrix. -/
theorem c2_conditional_recompute_and_force_propagation_witness :
    (((if true then true else false) || false) = true ∧ true = true) ∧
    (Obj2.updateMatrixWorld (fun t : Int => t + 1) (· * ·) (some 5) false
        (.mk 2 0 99 true true false false [])).matrixWorld = 5 * (2 + 1) := by
  refine ⟨⟨rfl, rfl⟩, ?_⟩
  exact (c2_conditional_recompute_and_force_propagation (fun t : Int => t + 1)
    (· * ·) (some 5) false 2 0 99 true true false false []).2.1 rfl rfl

/-- Counterexample to C2 as stated: the src/src/core/Object3D.js
revision recomputes unconditionally.  A root node whose stored world
matrix is 99, updated with force = false and with no dirty state of any
kind (the revision keeps no dirty flag), still gets its world matrix
overwritten with the freshly composed local matrix 5. -/
theorem c2_counterexample_unconditional_recompute :
    (Obj.updateMatrixWorld (fun t : Int => t + 1) (· * ·) none false
        (.mk 4 0 99 [])).matrixWorld = 5 ∧ (5 : Int) ≠ 99 := by
  constructor
  · rw [Obj.updateMatrixWorld_eq]
    norm_num [Obj.matrixWorld]
  · decide

/-- C3 (amended): in the v1.1 (part_002) revision, add is a silent
no-op leaving the heap completely unchanged when the child argument is
the node itself or an ancestor of the node; in the src/src revision,
self-add throws an Error instead. -/
theorem c3_cycle_add_is_noop (h h2 : Heap) (thisId objId selfId : Nat)
    (hc : objId = thisId ∨
      isDescendantOf h ((h : List (Nat × ObjRec)).length) thisId objId = true) :
    Object3D.addV11 h thisId objId = h ∧
    Object3D.addV10 h2 selfId selfId =
      Except.error "Object3D.add: object cannot be added as a child of itself." := by
  constructor
  · unfold Object3D.addV11
    rcases hc with rfl | hdesc
    · cases hO : heapLookup h objId <;> simp [hO]
    · cases hO : heapLookup h objId <;> cases hT : heapLookup h thisId <;>
        simp [hO, hT, hdesc]
  · unfold Object3D.addV10
    simp

/-- Witness for C3: a two-object heap where object 0 is the parent of
object 1; adding 0 as a child of 1 would create a cycle and is a
no-op. -/
theorem c3_cycle_add_is_noop_witness :
    (0 = 1 ∨ isDescendantOf
        [(0, ObjRec.mk none [1] true), (1, ObjRec.mk (some 0) [] true)]
        2 1 0 = true) ∧
    Object3D.addV11
        [(0, ObjRec.mk none [1] true), (1, ObjRec.mk (some 0) [] true)] 1 0 =
      [(0, ObjRec.mk none [1] true), (1, ObjRec.mk (some 0) [] true)] ∧
    Object3D.addV10 [(0, ObjRec.mk none [] true)] 0 0 =
      Except.error "Object3D.add: object cannot be added as a child of itself." := by
  have hc : (0 = 1 ∨ isDescendantOf
      [(0, ObjRec.mk none [1] true), (1, ObjRec.mk (some 0) [] true)]
      2 1 0 = true) := Or.inr (by decide)
  have := c3_cycle_add_is_noop
    [(0, ObjRec.mk none [1] true), (1, ObjRec.mk (some 0) [] true)]
    [(0, ObjRec.mk none [] true)] 1 0 0 hc
  exact ⟨hc, this.1, this.2⟩

/-- Counterexample to C3 as stated: in the src/src/core/Object3D.js
revision, a.add(a) throws an Error (not a silent no-op), and adding a
node under its own descendant is not detected: the parent pointer of
object 0 is redirected to its own child 1, creating a cycle. -/
theorem c3_counterexample_throw_and_cycle :
    Object3D.addV10 [(0, ObjRec.mk none [] true)] 0 0 =
      Except.error "Object3D.add: object cannot be added as a child of itself." ∧
    (match Object3D.addV10
        [(0, ObjRec.mk none [1] true), (1, ObjRec.mk (some 0) [] true)] 1 0 with
      | .ok h3 => parentOf h3 0
      | .error _ => none) = some 1 := by
  constructor
  · rfl
  · rfl

/-! ## Geometry (src/unnamed/part_000) and the renderer resource cache
(src/src/renderer/Renderer.js)

GL buffer handles carry no information relevant to the claims, so a
cache entry records which buffers were created plus the recorded index
count and index type.  The WeakMap registries keyed by object identity
become association lists keyed by a numeric resource id. -/

/-- A typed index array as produced by the Geometry constructor: either
a Uint16Array or a Uint32Array; stored values are reduced modulo the
element width exactly as a JavaScript typed array does. -/
inductive IndexArray : Type where
  | uint16 (vals : List Nat)
  | uint32 (vals : List Nat)
deriving DecidableEq

/-- The element values of the typed index array. -/
def IndexArray.vals : IndexArray → List Nat
  | .uint16 v => v
  | .uint32 v => v

/-- Whether the array is a Uint32Array (renderer: instanceof Uint32Array). -/
def IndexArray.isUint32 : IndexArray → Bool
  | .uint16 _ => false
  | .uint32 _ => true

/-- Index-array construction in the Geometry constructor of
src/unnamed/part_000 (lines 79-83): when indices are provided, a
Uint32Array is used when parameters.indices.length > 65535 and a
Uint16Array otherwise; values are truncated to the element width as
JavaScript typed-array stores do. -/
def Geometry.buildIndices (indices : Option (List Nat)) : Option IndexArray :=
  match indices with
  | none => none
  | some l =>
    some (if l.length > 65535 then IndexArray.uint32 (l.map (· % 4294967296))
          else IndexArray.uint16 (l.map (· % 65536)))

/-- CPU-side geometry resource (src/unnamed/part_000), restricted to
the fields the renderer reads: id (resource identity), attribute
arrays, the disposed flag and the needsUpdate dirty flag. -/
structure GeometryR where
  id : Nat
  vertices : List Int
  normals : Option (List Int)
  uvs : Option (List Int)
  indices : Option IndexArray
  disposed : Bool
  needsUpdate : Bool
deriving DecidableEq

/-- GPU-side cache entry built by WebGLRenderer.uploadGeometry: which
buffers were created, the recorded element count, and the recorded
index type (some true = gl.UNSIGNED_INT, some false =
gl.UNSIGNED_SHORT, none for the non-indexed path). -/
structure GeomGPU where
  hasPositionBuffer : Bool
  hasNormalBuffer : Bool
  hasUvBuffer : Bool
  hasIndexBuffer : Bool
  indexCount : Nat
  indexType : Option Bool
deriving DecidableEq

/-- The handle bundle uploadGeometry builds from the geometry contents
(Renderer.js lines 289-323). -/
def WebGLRenderer.buildGeomGPU (g : GeometryR) : GeomGPU :=
  { hasPositionBuffer := decide (0 < g.vertices.length)
    hasNormalBuffer := match g.normals with
      | some l => decide (0 < l.length)
      | none => false
    hasUvBuffer := match g.uvs with
      | some l => decide (0 < l.length)
      | none => false
    hasIndexBuffer := match g.indices with
      | some ia => decide (0 < ia.vals.length)
      | none => false
    indexCount := match g.indices with
      | some ia => if 0 < ia.vals.length then ia.vals.length else g.vertices.length / 3
      | none => g.vertices.length / 3
    indexType := match g.indices with
      | some ia => if 0 < ia.vals.length then some ia.isUint32 else none
      | none => none }

/-- Material kind: the type field of the material object ('ShaderMaterial'
or anything else). -/
inductive MatKind : Type where
  | shaderMaterial
  | basic
deriving DecidableEq

/-- CPU-side material resource, restricted to the fields the renderer
and ShaderMaterial.compile read. -/
structure MaterialR where
  id : Nat
  kind : MatKind
  vertexShader : Option Nat
  fragmentShader : Option Nat
  program : Option Nat
  compiled : Bool
  needsUpdate : Bool
deriving DecidableEq

/-- Abstract WebGL backend behaviour: which shader sources compile,
which stage pairs link, and the program handle produced on success. -/
structure GLEnv where
  vsOk : Nat → Bool
  fsOk : Nat → Bool
  linkOk : Nat → Nat → Bool
  progHandle : Nat → Nat → Nat

/-- Whether _compileShader succeeds for a stage: a missing source or a
failing compilation yields a null shader. -/
def stageOk (ok : Nat → Bool) : Option Nat → Bool
  | some src => ok src
  | none => false

/-- ShaderMaterial.compile of src/src/materials/ShaderMaterial.js
(lines 112-129): each stage that fails to compile yields a null shader;
linking then fails and the method returns early, leaving this.program
and this.compiled untouched; on link success the program handle is
stored and compiled is set. -/
def ShaderMaterial.compile (env : GLEnv) (m : MaterialR) : MaterialR :=
  let linked := stageOk env.vsOk m.vertexShader && stageOk env.fsOk m.fragmentShader &&
    env.linkOk (m.vertexShader.getD 0) (m.fragmentShader.getD 0)
  if linked then
    { m with
      program := some (env.progHandle (m.vertexShader.getD 0) (m.fragmentShader.getD 0))
      compiled := true }
  else m

/-- Renderer state: the WebGLRenderer fields the claims depend on.  The
geometry registry maps geometry id to its handle bundle; the material
registry records the cached material ids (the stored value, an upload
timestamp, carries no information). -/
structure RState where
  initialized : Bool
  destroyed : Bool
  geometries : List (Nat × GeomGPU)
  materials : List Nat
  currentProgram : Option Nat
  drawCalls : Nat
  frameCount : Nat
deriving DecidableEq

/-- The state of a freshly constructed WebGLRenderer. -/
def RState.initial : RState :=
  { initialized := false
    destroyed := false
    geometries := []
    materials := []
    currentProgram := none
    drawCalls := 0
    frameCount := 0 }

/-- Key lookup in the geometry registry. -/
def geomGet (l : List (Nat × GeomGPU)) (k : Nat) : Option GeomGPU :=
  (l.find? (fun p => p.1 == k)).map (·.2)

/-- Key membership in the geometry registry. -/
def geomHas (l : List (Nat × GeomGPU)) (k : Nat) : Bool :=
  l.any (fun p => p.1 == k)

/-- WebGLRenderer.uploadGeometry (Renderer.js lines 285-334): returns
immediately when the geometry is disposed or already has a cache entry
(the needsUpdate flag is NOT consulted on this path); otherwise builds
the handle bundle from the geometry contents, stores it keyed by the
geometry, and clears the geometry dirty flag. -/
def WebGLRenderer.uploadGeometry (s : RState) (g : GeometryR) :
    RState × GeometryR :=
  if g.disposed then (s, g)
  else if geomHas s.geometries g.id then (s, g)
  else
    ({ s with geometries := s.geometries ++ [(g.id, WebGLRenderer.buildGeomGPU g)] },
     { g with needsUpdate := false })

/-- WebGLRenderer.uploadMaterial (Renderer.js lines 341-358): no-op
when the material has a cache entry and is not dirty; otherwise, for a
ShaderMaterial (or anything carrying a vertexShader), runs
material.compile, then unconditionally stores the cache entry and
clears the dirty flag — also when compilation or linking just failed. -/
def WebGLRenderer.uploadMaterial (env : GLEnv) (s : RState) (m : MaterialR) :
    RState × MaterialR :=
  if s.materials.contains m.id && !m.needsUpdate then (s, m)
  else
    let m1 := if m.kind == MatKind.shaderMaterial || m.vertexShader.isSome
      then ShaderMaterial.compile env m else m
    ({ s with materials := if s.materials.contains m.id then s.materials
        else s.materials ++ [m.id] },
     { m1 with needsUpdate := false })

/-- A mesh as consumed by drawMesh: optional geometry and material. -/
structure MeshR where
  geometry : Option GeometryR
  material : Option MaterialR

/-- WebGLRenderer.drawMesh (Renderer.js lines 404-480): returns without
drawing when geometry or material is missing or the geometry has no
cache entry; for a ShaderMaterial-like material it binds the program
(tracking the currently bound program) and issues the draw call,
incrementing drawCalls — without ever checking whether the program
compiled; for other materials it returns without drawing. -/
def WebGLRenderer.drawMesh (s : RState) (mesh : MeshR) : RState :=
  match mesh.geometry, mesh.material with
  | some g, some mat =>
    (match geomGet s.geometries g.id with
     | none => s
     | some _ =>
        if mat.kind == MatKind.shaderMaterial || mat.vertexShader.isSome then
          let s1 := if s.currentProgram == mat.program then s
            else { s with currentProgram := mat.program }
          { s1 with drawCalls := s1.drawCalls + 1 }
        else s)
  | _, _ => s

/-- WebGLRenderer.destroy (Renderer.js lines 493-528): after the
early-return guard on this.destroyed, the method runs
for (const [geom, gpu] of this._geometries) — but this._geometries is
a WeakMap (line 146), which has no iterator, so in JavaScript every
first call throws TypeError before any cache entry is released and
before this.destroyed is ever set. -/
def WebGLRenderer.destroy (s : RState) : Except String RState :=
  if s.destroyed then Except.ok s
  else Except.error "TypeError: this._geometries is not iterable"

/-- Camera.dispose (src/src/cameras/Camera.js lines 120-124): the body
first calls super.dispose(), but the base class src/src/core/Object3D.js
defines destroy() and no dispose(), so the call throws TypeError before
projectionMatrix/viewMatrix are cleared. -/
def Camera.dispose : Except String Unit :=
  Except.error "TypeError: super.dispose is not a function"

/-! ## Claims C4, C5, C6, C9 -/

/-- uploadMaterial reduced to an explicit case distinction. -/
theorem uploadMaterial_cases (env : GLEnv) (s : RState) (m : MaterialR) :
    WebGLRenderer.uploadMaterial env s m =
      if m.id ∈ s.materials ∧ m.needsUpdate = false then (s, m)
      else
        ({ s with materials := if m.id ∈ s.materials then s.materials
            else s.materials ++ [m.id] },
         { (if m.kind = MatKind.shaderMaterial ∨ m.vertexShader.isSome = true
              then ShaderMaterial.compile env m else m) with needsUpdate := false }) := by
  unfold WebGLRenderer.uploadMaterial
  by_cases h1 : m.id ∈ s.materials
  · by_cases h2 : m.needsUpdate = false
    · simp [h1, h2]
    · have h2' : m.needsUpdate = true := by simpa using h2
      simp [h1, h2']
  · simp [h1]

/-- ShaderMaterial.compile never changes id, kind, vertexShader or
needsUpdate. -/
theorem compile_preserves_identity (env : GLEnv) (m : MaterialR) :
    (ShaderMaterial.compile env m).id = m.id ∧
    (ShaderMaterial.compile env m).kind = m.kind ∧
    (ShaderMaterial.compile env m).vertexShader = m.vertexShader ∧
    (ShaderMaterial.compile env m).needsUpdate = m.needsUpdate := by
  unfold ShaderMaterial.compile
  by_cases h : (stageOk env.vsOk m.vertexShader && stageOk env.fsOk m.fragmentShader &&
      env.linkOk (m.vertexShader.getD 0) (m.fragmentShader.getD 0)) = true
  · simp [h]
  · rw [Bool.not_eq_true] at h
    simp [h]

/-- After uploadMaterial, the result material is clean, keeps its id,
and is present in the cache. -/
theorem uploadMaterial_result (env : GLEnv) (s : RState) (m : MaterialR) :
    (WebGLRenderer.uploadMaterial env s m).2.needsUpdate = false ∧
    (WebGLRenderer.uploadMaterial env s m).2.id = m.id ∧
    m.id ∈ (WebGLRenderer.uploadMaterial env s m).1.materials := by
  rw [uploadMaterial_cases]
  by_cases h1 : m.id ∈ s.materials ∧ m.needsUpdate = false
  · simp [h1, h1.1, h1.2]
  · have hid : (if m.kind = MatKind.shaderMaterial ∨ m.vertexShader.isSome = true
        then ShaderMaterial.compile env m else m).id = m.id := by
      split
      · exact (compile_preserves_identity env m).1
      · rfl
    by_cases h2 : m.id ∈ s.materials
    · have hnd : m.needsUpdate = true := by
        cases hu : m.needsUpdate
        · exact absurd ⟨h2, hu⟩ h1
        · rfl
      simp [h1, h2, hnd, hid]
    · simp [h1, h2, hid]

/-- uploadGeometry reduced to an explicit case distinction. -/
theorem uploadGeometry_cases (s : RState) (g : GeometryR) :
    WebGLRenderer.uploadGeometry s g =
      if g.disposed = true ∨ geomHas s.geometries g.id = true then (s, g)
      else
        ({ s with geometries := s.geometries ++ [(g.id, WebGLRenderer.buildGeomGPU g)] },
         { g with needsUpdate := false }) := by
  unfold WebGLRenderer.uploadGeometry
  by_cases h1 : g.disposed = true
  · simp [h1]
  · rw [Bool.not_eq_true] at h1
    by_cases h2 : geomHas s.geometries g.id = true
    · simp [h1, h2]
    · rw [Bool.not_eq_true] at h2
      simp [h1, h2]

/-- A key just appended to the geometry registry is found there. -/
theorem geomHas_append_self (l : List (Nat × GeomGPU)) (k : Nat) (v : GeomGPU) :
    geomHas (l ++ [(k, v)]) k = true := by
  simp [geomHas, List.any_append]

/-- C4 (amended): uploadMaterial is a no-op exactly when the material is
cached and not dirty, and otherwise refreshes the single cache entry
and clears the dirty flag; uploadGeometry however is a no-op whenever
the geometry is disposed or already has a cache entry, regardless of
its needsUpdate flag — only a first upload builds the entry and clears
the flag.  Both uploads are idempotent on their own output, so calling
twice without setting needsUpdate yields exactly one cache entry. -/
theorem c4_upload_noop_and_refresh (env : GLEnv) (s : RState)
    (g : GeometryR) (m : MaterialR)
    (hmc : m.id ∈ s.materials) (hmd : m.needsUpdate = false)
    (hgn : g.disposed = false) (hgf : geomHas s.geometries g.id = false) :
    WebGLRenderer.uploadMaterial env s m = (s, m) ∧
    (∀ s0 m0, m0.id ∈ (WebGLRenderer.uploadMaterial env s0 m0).1.materials ∧
      (WebGLRenderer.uploadMaterial env s0 m0).2.needsUpdate = false) ∧
    (∀ s0 m0, WebGLRenderer.uploadMaterial env
        (WebGLRenderer.uploadMaterial env s0 m0).1
        (WebGLRenderer.uploadMaterial env s0 m0).2 =
      WebGLRenderer.uploadMaterial env s0 m0) ∧
    (∀ s0 g0, g0.disposed = true ∨ geomHas s0.geometries g0.id = true →
      WebGLRenderer.uploadGeometry s0 g0 = (s0, g0)) ∧
    ((WebGLRenderer.uploadGeometry s g).1.geometries =
        s.geometries ++ [(g.id, WebGLRenderer.buildGeomGPU g)] ∧
      (WebGLRenderer.uploadGeometry s g).2 = { g with needsUpdate := false }) ∧
    (∀ s0 g0, WebGLRenderer.uploadGeometry
        (WebGLRenderer.uploadGeometry s0 g0).1
        (WebGLRenderer.uploadGeometry s0 g0).2 =
      WebGLRenderer.uploadGeometry s0 g0) := by
  refine ⟨?_, ?_, ?_, ?_, ?_, ?_⟩
  · rw [uploadMaterial_cases]
    simp [hmc, hmd]
  · intro s0 m0
    have h := uploadMaterial_result env s0 m0
    exact ⟨h.2.2, h.1⟩
  · intro s0 m0
    have h := uploadMaterial_result env s0 m0
    rw [uploadMaterial_cases env (WebGLRenderer.uploadMaterial env s0 m0).1]
    rw [h.2.1]
    simp [h.1, h.2.2]
  · intro s0 g0 h0
    rw [uploadGeometry_cases]
    simp [h0]
  · rw [uploadGeometry_cases]
    simp [hgn, hgf]
  · intro s0 g0
    rw [uploadGeometry_cases s0 g0]
    by_cases h : g0.disposed = true ∨ geomHas s0.geometries g0.id = true
    · simp only [h, if_true]
      rw [uploadGeometry_cases]
      simp [h]
    · simp only [h, if_false]
      rw [uploadGeometry_cases]
      have : geomHas (s0.geometries ++ [(g0.id, WebGLRenderer.buildGeomGPU g0)])
          g0.id = true := geomHas_append_self _ _ _
      simp [this]

/-- Witness for C4: a state in which material 2 is cached clean and
geometry 7 is fresh. -/
theorem c4_upload_noop_and_refresh_witness :
    (2 : Nat) ∈ ({ RState.initial with materials := [2] } : RState).materials ∧
    (MaterialR.mk 2 MatKind.basic none none none false false).needsUpdate = false ∧
    (GeometryR.mk 7 [1, 2, 3] none none none false false).disposed = false ∧
    geomHas RState.initial.geometries 7 = false ∧
    WebGLRenderer.uploadMaterial
        (GLEnv.mk (fun _ => true) (fun _ => true) (fun _ _ => true) (fun _ _ => 9))
        { RState.initial with materials := [2] }
        (MaterialR.mk 2 MatKind.basic none none none false false) =
      ({ RState.initial with materials := [2] },
        MaterialR.mk 2 MatKind.basic none none none false false) := by
  refine ⟨by decide, rfl, rfl, by decide, ?_⟩
  exact (c4_upload_noop_and_refresh
    (GLEnv.mk (fun _ => true) (fun _ => true) (fun _ _ => true) (fun _ _ => 9))
    { RState.initial with materials := [2] }
    (GeometryR.mk 7 [1, 2, 3] none none none false false)
    (MaterialR.mk 2 MatKind.basic none none none false false)
    (by decide) rfl rfl (by decide)).1

/-- Counterexample to C4 as stated: a geometry that already has a cache
entry and has its needsUpdate dirty flag set is still a complete no-op
for uploadGeometry — the entry is not rebuilt and the dirty flag is not
cleared. -/
theorem c4_counterexample_geometry_dirty_ignored :
    WebGLRenderer.uploadGeometry
        { RState.initial with
          geometries := [(7, WebGLRenderer.buildGeomGPU
            (GeometryR.mk 7 [1, 2, 3] none none none false false))] }
        (GeometryR.mk 7 [4, 5, 6] none none none false true) =
      ({ RState.initial with
          geometries := [(7, WebGLRenderer.buildGeomGPU
            (GeometryR.mk 7 [1, 2, 3] none none none false false))] },
        GeometryR.mk 7 [4, 5, 6] none none none false true) ∧
    (GeometryR.mk 7 [4, 5, 6] none none none false true).needsUpdate = true := by
  exact ⟨rfl, rfl⟩

/-- A key present in the geometry registry has a retrievable entry. -/
theorem geomGet_of_has (l : List (Nat × GeomGPU)) (k : Nat)
    (h : geomHas l k = true) : ∃ v, geomGet l k = some v := by
  unfold geomHas at h
  unfold geomGet
  rcases hfind : l.find? (fun p => p.1 == k) with _ | q
  · rw [List.find?_eq_none] at hfind
    rw [List.any_eq_true] at h
    obtain ⟨p, hp, hpk⟩ := h
    exact absurd hpk (hfind p hp)
  · refine ⟨q.2, ?_⟩
    rw [hfind]
    rfl

/-- C5 (amended): when a stage of a shader material fails to compile,
compile leaves the material without a program, but uploadMaterial does
not abort: it still stores the cache entry and clears the dirty flag,
and drawMesh does not check compilation status — a mesh using the
failed material still gets its draw call issued. -/
theorem c5_failed_compile_not_skipped (env : GLEnv) (s : RState)
    (m : MaterialR) (v : Nat)
    (hkind : m.kind = MatKind.shaderMaterial)
    (hvs : m.vertexShader = some v)
    (hfail : env.vsOk v = false) :
    ShaderMaterial.compile env m = m ∧
    (m.id ∈ (WebGLRenderer.uploadMaterial env s m).1.materials ∧
      (WebGLRenderer.uploadMaterial env s m).2 = { m with needsUpdate := false }) ∧
    (∀ s2 g, geomHas s2.geometries g.id = true →
      (WebGLRenderer.drawMesh s2
        (MeshR.mk (some g) (some (WebGLRenderer.uploadMaterial env s m).2))).drawCalls =
        s2.drawCalls + 1) := by
  have hcomp : ShaderMaterial.compile env m = m := by
    unfold ShaderMaterial.compile
    rw [hvs]
    simp [stageOk, hfail]
  refine ⟨hcomp, ?_, ?_⟩
  · rw [uploadMaterial_cases]
    by_cases h1 : m.id ∈ s.materials ∧ m.needsUpdate = false
    · refine ⟨by simp [h1, h1.1], ?_⟩
      simp only [h1, if_true]
      cases m
      simp_all
    · constructor
      · by_cases h2 : m.id ∈ s.materials
        · have hnd : m.needsUpdate = true := by
            cases hu : m.needsUpdate
            · exact absurd ⟨h2, hu⟩ h1
            · rfl
          simp [h1, h2, hnd]
        · simp [h1, h2]
      · simp [h1, hkind, hcomp]
  · intro s2 g hg
    have hkind2 : (WebGLRenderer.uploadMaterial env s m).2.kind =
        MatKind.shaderMaterial := by
      rw [uploadMaterial_cases]
      by_cases h1 : m.id ∈ s.materials ∧ m.needsUpdate = false
      · simp [h1, hkind]
      · simp [h1, hkind, hcomp]
    obtain ⟨gpu, hgpu⟩ := geomGet_of_has _ _ hg
    unfold WebGLRenderer.drawMesh
    simp only [hgpu, hkind2]
    by_cases hp : s2.currentProgram == (WebGLRenderer.uploadMaterial env s m).2.program
    · simp [hp]
    · rw [Bool.not_eq_true] at hp
      simp [hp]

/-- Witness for C5 at a concrete failing vertex shader. -/
theorem c5_failed_compile_not_skipped_witness :
    (MaterialR.mk 2 MatKind.shaderMaterial (some 11) (some 12) none false true).kind =
        MatKind.shaderMaterial ∧
    (MaterialR.mk 2 MatKind.shaderMaterial (some 11) (some 12) none false true).vertexShader =
        some 11 ∧
    (GLEnv.mk (fun _ => false) (fun _ => true) (fun _ _ => true) (fun _ _ => 9)).vsOk 11 =
        false ∧
    ShaderMaterial.compile
        (GLEnv.mk (fun _ => false) (fun _ => true) (fun _ _ => true) (fun _ _ => 9))
        (MaterialR.mk 2 MatKind.shaderMaterial (some 11) (some 12) none false true) =
      MaterialR.mk 2 MatKind.shaderMaterial (some 11) (some 12) none false true := by
  refine ⟨rfl, rfl, rfl, ?_⟩
  exact (c5_failed_compile_not_skipped
    (GLEnv.mk (fun _ => false) (fun _ => true) (fun _ _ => true) (fun _ _ => 9))
    RState.initial
    (MaterialR.mk 2 MatKind.shaderMaterial (some 11) (some 12) none false true)
    11 rfl rfl rfl).1

/-- Counterexample to C5 as stated: full pipeline at a concrete failing
material — after uploadGeometry and uploadMaterial, the material has no
program, yet drawMesh still issues one draw call instead of skipping
the drawable. -/
theorem c5_counterexample_draw_call_issued :
    ((WebGLRenderer.uploadMaterial
        (GLEnv.mk (fun _ => false) (fun _ => true) (fun _ _ => true) (fun _ _ => 9))
        (WebGLRenderer.uploadGeometry RState.initial
          (GeometryR.mk 1 [0, 0, 0, 1, 0, 0, 0, 1, 0] none none none false true)).1
        (MaterialR.mk 2 MatKind.shaderMaterial (some 11) (some 12) none false true)).2.program =
      none) ∧
    (WebGLRenderer.drawMesh
        (WebGLRenderer.uploadMaterial
          (GLEnv.mk (fun _ => false) (fun _ => true) (fun _ _ => true) (fun _ _ => 9))
          (WebGLRenderer.uploadGeometry RState.initial
            (GeometryR.mk 1 [0, 0, 0, 1, 0, 0, 0, 1, 0] none none none false true)).1
          (MaterialR.mk 2 MatKind.shaderMaterial (some 11) (some 12) none false true)).1
        (MeshR.mk
          (some (WebGLRenderer.uploadGeometry RState.initial
            (GeometryR.mk 1 [0, 0, 0, 1, 0, 0, 0, 1, 0] none none none false true)).2)
          (some (WebGLRenderer.uploadMaterial
            (GLEnv.mk (fun _ => false) (fun _ => true) (fun _ _ => true) (fun _ _ => 9))
            (WebGLRenderer.uploadGeometry RState.initial
              (GeometryR.mk 1 [0, 0, 0, 1, 0, 0, 0, 1, 0] none none none false true)).1
            (MaterialR.mk 2 MatKind.shaderMaterial (some 11) (some 12) none false true)).2))).drawCalls =
      1 := by
  exact ⟨rfl, rfl⟩

/-- C6: the Geometry constructor selects the 16-bit index width by the
NUMBER of indices, not by their values: three indices containing the
value 70000 still go into a Uint16Array (silently truncated to 4464 =
70000 mod 65536), while 65536 indices all equal to 0 go into a
Uint32Array; the renderer then records the index type from the array
class.  The claim (width chosen by whether any index exceeds 65535) is
what a correct engine must do to avoid corrupting indices; the code
checks the count instead. -/
theorem c6_index_width_chosen_by_count :
    Geometry.buildIndices (some [0, 1, 70000]) =
      some (IndexArray.uint16 [0, 1, 4464]) ∧
    Geometry.buildIndices (some (List.replicate 65536 0)) =
      some (IndexArray.uint32 (List.replicate 65536 0)) ∧
    (WebGLRenderer.buildGeomGPU
      (GeometryR.mk 1 [0, 0, 0, 1, 0, 0, 0, 1, 0] none none
        (Geometry.buildIndices (some [0, 1, 70000])) false true)).indexType =
      some false := by
  refine ⟨by decide, ?_, by decide⟩
  have hlen : (List.replicate 65536 (0 : Nat)).length > 65535 := by
    rw [List.length_replicate]
    omega
  unfold Geometry.buildIndices
  show some (if (List.replicate 65536 (0 : Nat)).length > 65535
      then IndexArray.uint32 ((List.replicate 65536 (0 : Nat)).map (· % 4294967296))
      else IndexArray.uint16 ((List.replicate 65536 (0 : Nat)).map (· % 65536))) =
    some (IndexArray.uint32 (List.replicate 65536 0))
  rw [if_pos hlen, List.map_replicate]

/-- C9: WebGLRenderer.destroy throws a TypeError on every first call —
the WeakMap registry it tries to iterate with for..of is not iterable —
so no cache entry is ever released and the destroyed flag is never set;
Camera.dispose likewise throws because the Object3D base class has no
dispose method.  Shown on a fresh renderer and on an initialized
renderer with cached resources. -/
theorem c9_destroy_throws_typeerror :
    WebGLRenderer.destroy RState.initial =
      Except.error "TypeError: this._geometries is not iterable" ∧
    WebGLRenderer.destroy
        { initialized := true
          destroyed := false
          geometries := [(7, WebGLRenderer.buildGeomGPU
            (GeometryR.mk 7 [1, 2, 3] none none none false false))]
          materials := [2]
          currentProgram := some 9
          drawCalls := 3
          frameCount := 4 } =
      Except.error "TypeError: this._geometries is not iterable" ∧
    Camera.dispose = Except.error "TypeError: super.dispose is not a function" := by
  exact ⟨rfl, rfl, rfl⟩

/-! ## Frame rendering: drawable collection and sorting (Renderer.js
render, lines 218-278)

render gathers visible meshes by a pre-order scene traversal (the
traverse of part_002 skips disabled subtrees; the collecting callback
skips nodes with visible === false and keeps Mesh nodes), then sorts
them by the material/program grouping key
a.material && (a.material.program || a.material.type).
ECMAScript Array.prototype.sort is specified stable, modelled here by a
merge sort. -/

/-- The fields of a material that feed the render sort key: the program
handle (null until linked) and the type string (interned as a Nat). -/
structure MatKeyR where
  program : Option Nat
  mtype : Nat
deriving DecidableEq

/-- A scene node as seen by the render traversal: enabled/visible
flags, whether it is a Mesh, its material, and children. -/
inductive RNode : Type where
  | mk (enabled visible isMesh : Bool) (material : Option MatKeyR)
       (children : List RNode)

/-- Field accessor: material reference. -/
def RNode.material : RNode → Option MatKeyR
  | .mk _ _ _ m _ => m

/-- Visible-mesh collection performed by render: traverse (skipping
subtrees whose root is disabled) and push every visible Mesh node in
pre-order. -/
def RNode.collect : RNode → List RNode
  | .mk en vis isM mat cs =>
    if en = false then []
    else (if vis && isM then [RNode.mk en vis isM mat cs] else []) ++
      cs.attach.flatMap fun c => c.1.collect
termination_by o => sizeOf o
decreasing_by
  have h := List.sizeOf_lt_of_mem c.2
  simp only [RNode.mk.sizeOf_spec]
  omega

/-- Any list-valued function flat-mapped over List.attach agrees with
the same function over the bare list. -/
theorem list_attach_flatMap {α β : Type} (l : List α) (f : α → List β) :
    (l.attach.flatMap fun c => f c.1) = l.flatMap f := by
  rw [List.flatMap_def, List.flatMap_def, List.attach_map_val]

/-- Unfolding equation for RNode.collect without List.attach. -/
theorem RNode.collect_eq (en vis isM : Bool) (mat : Option MatKeyR)
    (cs : List RNode) :
    RNode.collect (.mk en vis isM mat cs) =
      (if en = false then []
       else (if vis && isM then [RNode.mk en vis isM mat cs] else []) ++
         cs.flatMap RNode.collect) := by
  conv_lhs => rw [RNode.collect.eq_def]
  show (if en = false then []
      else (if vis && isM then [RNode.mk en vis isM mat cs] else []) ++
        cs.attach.flatMap fun c => c.1.collect) = _
  rw [list_attach_flatMap cs RNode.collect]

/-- The sort key of render: a.material && (a.material.program ||
a.material.type); a missing material gives the null key (bottom), a
material without a program falls back to its type tag. -/
def sortKey (m : Option MatKeyR) : WithBot Nat :=
  match m with
  | none => ⊥
  | some k => (k.program.getD k.mtype : Nat)

/-- The Bool comparison corresponding to the render comparator: the
comparator returns a non-positive value exactly when the left key is
less than or equal to the right key. -/
def drawLE (a b : RNode) : Bool :=
  decide (sortKey a.material ≤ sortKey b.material)

/-- The frame's draw order: the collected visible meshes, stable-sorted
by the grouping key. -/
def renderOrder (t : RNode) : List RNode :=
  (RNode.collect t).mergeSort drawLE

/-- C7: the per-frame sort of collected drawables is stable — any two
drawables collected in order A then B with equal grouping key are drawn
in order A then B. -/
theorem c7_sort_stability (t : RNode) (a b : RNode)
    (hsub : List.Sublist [a, b] (RNode.collect t))
    (hkey : sortKey a.material = sortKey b.material) :
    List.Sublist [a, b] (renderOrder t) := by
  apply List.pair_sublist_mergeSort
  · intro x y z hxy hyz
    rw [drawLE, decide_eq_true_iff] at *
    exact le_trans hxy hyz
  · intro x y
    rw [Bool.or_eq_true, drawLE, drawLE, decide_eq_true_iff, decide_eq_true_iff]
    exact le_total _ _
  · rw [drawLE, decide_eq_true_iff, hkey]
  · exact hsub

/-- Witness for C7: two distinct meshes with equal sort key 5,
collected in order A then B, remain in that order after the sort. -/
theorem c7_sort_stability_witness :
    List.Sublist
      [RNode.mk true true true (some (MatKeyR.mk none 5)) [],
        RNode.mk true true true (some (MatKeyR.mk (some 5) 99)) []]
      (RNode.collect (RNode.mk true false false none
        [RNode.mk true true true (some (MatKeyR.mk none 5)) [],
         RNode.mk true true true (some (MatKeyR.mk (some 5) 99)) []])) ∧
    sortKey (RNode.mk true true true (some (MatKeyR.mk none 5)) []).material =
      sortKey (RNode.mk true true true (some (MatKeyR.mk (some 5) 99)) []).material ∧
    List.Sublist
      [RNode.mk true true true (some (MatKeyR.mk none 5)) [],
        RNode.mk true true true (some (MatKeyR.mk (some 5) 99)) []]
      (renderOrder (RNode.mk true false false none
        [RNode.mk true true true (some (MatKeyR.mk none 5)) [],
         RNode.mk true true true (some (MatKeyR.mk (some 5) 99)) []])) := by
  have hcol : RNode.collect (RNode.mk true false false none
      [RNode.mk true true true (some (MatKeyR.mk none 5)) [],
       RNode.mk true true true (some (MatKeyR.mk (some 5) 99)) []]) =
      [RNode.mk true true true (some (MatKeyR.mk none 5)) [],
       RNode.mk true true true (some (MatKeyR.mk (some 5) 99)) []] := by
    simp [RNode.collect_eq]
  have hsub : List.Sublist
      [RNode.mk true true true (some (MatKeyR.mk none 5)) [],
        RNode.mk true true true (some (MatKeyR.mk (some 5) 99)) []]
      (RNode.collect (RNode.mk true false false none
        [RNode.mk true true true (some (MatKeyR.mk none 5)) [],
         RNode.mk true true true (some (MatKeyR.mk (some 5) 99)) []])) := by
    rw [hcol]
  have hkey : sortKey (RNode.mk true true true (some (MatKeyR.mk none 5)) []).material =
      sortKey (RNode.mk true true true (some (MatKeyR.mk (some 5) 99)) []).material := by
    rfl
  exact ⟨hsub, hkey, c7_sort_stability _ _ _ hsub hkey⟩

/-! ## Scene.update of src/src/core/Scene.js (claim C10)

Scene.update(delta) first calls super.update(delta) — the inherited
Object3D.update (src/src/core/Object3D.js lines 148-154), which when
the node is enabled invokes update on every child — and then runs its
own unconditional loop invoking update on every child again.  Nodes
here carry an updCalls counter incremented every time their update
method is invoked. -/

/-- A node as seen by the update loops: the enabled flag, an
instrumentation counter of update invocations, and children. -/
inductive UNode : Type where
  | mk (enabled : Bool) (updCalls : Nat) (children : List UNode)

/-- Field accessor: update-invocation counter. -/
def UNode.updCalls : UNode → Nat
  | .mk _ k _ => k

/-- Field accessor: children list. -/
def UNode.children : UNode → List UNode
  | .mk _ _ c => c

/-- Object3D.update (src/src/core/Object3D.js lines 148-154): the
invocation is counted; a disabled node returns immediately, an enabled
one invokes update on each child. -/
def UNode.update : UNode → UNode
  | .mk en k cs =>
    if en = false then .mk en (k + 1) cs
    else .mk en (k + 1) (cs.attach.map fun c => c.1.update)
termination_by o => sizeOf o
decreasing_by
  have h := List.sizeOf_lt_of_mem c.2
  simp only [UNode.mk.sizeOf_spec]
  omega

/-- Unfolding equation for UNode.update without List.attach. -/
theorem UNode.update_eq (en : Bool) (k : Nat) (cs : List UNode) :
    UNode.update (.mk en k cs) =
      if en = false then .mk en (k + 1) cs
      else .mk en (k + 1) (cs.map UNode.update) := by
  conv_lhs => rw [UNode.update.eq_def]
  show (if en = false then UNode.mk en (k + 1) cs
      else UNode.mk en (k + 1) (cs.attach.map fun c => c.1.update)) = _
  rw [List.attach_map_val cs UNode.update]

/-- An update invocation always increments the node's own counter by
exactly one. -/
theorem UNode.update_updCalls (u : UNode) :
    (UNode.update u).updCalls = u.updCalls + 1 := by
  cases u with
  | mk en k cs =>
    rw [UNode.update_eq]
    cases en <;> simp [UNode.updCalls]

/-- Scene.update of src/src/core/Scene.js (lines 77-83): super.update
(the Object3D.update body, which loops over the children when the scene
is enabled) followed by Scene.update's own unconditional loop over the
same children. -/
def Scene.update (s : UNode) : UNode :=
  match s with
  | .mk en k cs =>
    let cs1 := if en = false then cs else cs.map UNode.update
    .mk en (k + 1) (cs1.map UNode.update)

/-- C10: a single Scene.update call on an enabled scene increments the
update counter of every direct child by exactly two — each child's
update method runs once through the inherited Object3D.update loop and
once through Scene.update's own loop. -/
theorem c10_scene_update_runs_children_twice (k : Nat) (cs : List UNode) :
    (Scene.update (UNode.mk true k cs)).children.map UNode.updCalls =
      cs.map (fun c => c.updCalls + 2) := by
  have hch : (Scene.update (UNode.mk true k cs)).children =
      (cs.map UNode.update).map UNode.update := by
    unfold Scene.update
    simp [UNode.children]
  rw [hch, List.map_map, List.map_map]
  clear hch
  induction cs with
  | nil => rfl
  | cons x xs ih =>
    simp only [List.map_cons, List.cons.injEq]
    refine ⟨?_, ih⟩
    simp [Function.comp, UNode.update_updCalls]

/-! ## Scene uuid registry (src/unnamed/part_003, claim C8)

The Scene of part_003 keeps _objectsByUUID, a Map from uuid to node,
updated by Scene.add / Scene.remove through
_registerObjectRecursive / _unregisterObjectRecursive.  Nodes are
immutable trees carrying a uuid; the registry is modelled by its key
list (Map keys are unique; Map.set adds the key if absent, Map.delete
removes it).  Scene.add is modelled for arguments that are not already
direct children (the object.parent === this early return) and that come
from outside the scene (the claims' freshness hypotheses). -/

/-- A scene-graph node as seen by the registry: uuid plus children. -/
inductive NodeT : Type where
  | mk (uuid : Nat) (children : List NodeT)

/-- Field accessor: uuid. -/
def NodeT.uuid : NodeT → Nat
  | .mk u _ => u

/-- The uuids of a node and all its descendants, in the pre-order in
which _registerObjectRecursive visits them. -/
def NodeT.uuids : NodeT → List Nat
  | .mk u cs => u :: cs.attach.flatMap fun c => c.1.uuids
termination_by o => sizeOf o
decreasing_by
  have h := List.sizeOf_lt_of_mem c.2
  simp only [NodeT.mk.sizeOf_spec]
  omega

/-- Unfolding equation for NodeT.uuids without List.attach. -/
theorem NodeT.uuids_eq (u : Nat) (cs : List NodeT) :
    NodeT.uuids (.mk u cs) = u :: cs.flatMap NodeT.uuids := by
  conv_lhs => rw [NodeT.uuids.eq_def]
  show u :: (cs.attach.flatMap fun c => c.1.uuids) = _
  rw [list_attach_flatMap cs NodeT.uuids]

/-- Map.set on the key list: adds the key when absent. -/
def regSet (u : Nat) (reg : List Nat) : List Nat :=
  if u ∈ reg then reg else reg ++ [u]

/-- Map.delete on the key list. -/
def regDelete (u : Nat) (reg : List Nat) : List Nat :=
  reg.erase u

/-- Scene internal _registerObjectRecursive: Map.set for every uuid of the subtree. -/
def registerList (us : List Nat) (reg : List Nat) : List Nat :=
  us.foldl (fun r u => regSet u r) reg

/-- Scene internal _unregisterObjectRecursive: Map.delete for every uuid of the subtree. -/
def unregisterList (us : List Nat) (reg : List Nat) : List Nat :=
  us.foldl (fun r u => regDelete u r) reg

/-- Scene state: direct children plus the _objectsByUUID key list. -/
structure SceneS where
  children : List NodeT
  reg : List Nat

/-- Scene.add of src/unnamed/part_003 (lines 204-220) for an argument
coming from outside the scene: early return when the object is already
a direct child (object.parent === this, decided by uuid); otherwise
append to children and register the whole subtree. -/
def Scene.addT (s : SceneS) (t : NodeT) : SceneS :=
  if s.children.any (fun c => c.uuid == t.uuid) then s
  else { children := s.children ++ [t], reg := registerList t.uuids s.reg }

/-- Scene.remove of src/unnamed/part_003 (lines 231-242): when the
object (identified by uuid) is a direct child, splice it out of the
children list and unregister its whole subtree; otherwise no-op. -/
def Scene.removeT (s : SceneS) (u : Nat) : SceneS :=
  match s.children.find? (fun c => c.uuid == u) with
  | none => s
  | some c =>
    { children := s.children.eraseP (fun c => c.uuid == u)
      reg := unregisterList c.uuids s.reg }

/-- The uuids Scene.remove unregisters: those of the removed direct
child's subtree (empty when the argument is not a direct child). -/
def Scene.removedUuids (s : SceneS) (u : Nat) : List Nat :=
  match s.children.find? (fun c => c.uuid == u) with
  | none => []
  | some c => c.uuids

/-- All uuids reachable from the scene root. -/
def SceneS.reachable (s : SceneS) : List Nat :=
  s.children.flatMap NodeT.uuids

/-- The registry invariant: keys are unique, reachable uuids are
globally unique, and the registry holds exactly the reachable uuids
(every node reachable from the root appears exactly once in the
index). -/
def SceneS.inv (s : SceneS) : Prop :=
  s.reg.Nodup ∧ s.reachable.Nodup ∧
  (∀ u ∈ s.reg, u ∈ s.reachable) ∧ (∀ u ∈ s.reachable, u ∈ s.reg)

instance (s : SceneS) : Decidable s.inv := by
  unfold SceneS.inv
  infer_instance

/-- Membership after a single Map.set. -/
theorem mem_regSet (v u : Nat) (reg : List Nat) :
    v ∈ regSet u reg ↔ v ∈ reg ∨ v = u := by
  unfold regSet
  by_cases h : u ∈ reg
  · simp only [h, if_true]
    constructor
    · exact fun hv => Or.inl hv
    · rintro (hv | rfl)
      · exact hv
      · exact h
  · simp [h]

/-- Map.set preserves key uniqueness. -/
theorem nodup_regSet (u : Nat) (reg : List Nat) (h : reg.Nodup) :
    (regSet u reg).Nodup := by
  unfold regSet
  by_cases hm : u ∈ reg
  · simpa [hm]
  · simp [hm, List.nodup_append, h]

/-- Membership after registering a whole uuid list. -/
theorem mem_registerList (us : List Nat) :
    ∀ (reg : List Nat) (v : Nat), v ∈ registerList us reg ↔ v ∈ reg ∨ v ∈ us := by
  induction us with
  | nil => simp [registerList]
  | cons u us ih =>
    intro reg v
    show v ∈ registerList us (regSet u reg) ↔ _
    rw [ih (regSet u reg) v, mem_regSet]
    simp only [List.mem_cons]
    tauto

/-- Registering preserves key uniqueness. -/
theorem nodup_registerList (us : List Nat) :
    ∀ reg : List Nat, reg.Nodup → (registerList us reg).Nodup := by
  induction us with
  | nil => simp [registerList]
  | cons u us ih =>
    intro reg h
    exact ih (regSet u reg) (nodup_regSet u reg h)

/-- Membership after unregistering a whole uuid list (on a duplicate-free
registry, Map.delete removes exactly the given key). -/
theorem mem_unregisterList (us : List Nat) :
    ∀ (reg : List Nat), reg.Nodup →
      ∀ v, v ∈ unregisterList us reg ↔ v ∈ reg ∧ v ∉ us := by
  induction us with
  | nil => simp [unregisterList]
  | cons u us ih =>
    intro reg h v
    show v ∈ unregisterList us (regDelete u reg) ↔ _
    rw [ih (regDelete u reg) (List.Nodup.erase u h) v]
    unfold regDelete
    rw [List.Nodup.mem_erase_iff h]
    simp only [List.mem_cons]
    tauto

/-- Unregistering preserves key uniqueness. -/
theorem nodup_unregisterList (us : List Nat) :
    ∀ reg : List Nat, reg.Nodup → (unregisterList us reg).Nodup := by
  induction us with
  | nil => simp [unregisterList]
  | cons u us ih =>
    intro reg h
    exact ih (regDelete u reg) (List.Nodup.erase u h)

/-- Object3D.add invoked on a node inside the scene tree (identified by
uuid): both Object3D revisions (src/src/core/Object3D.js lines 215-223,
src/unnamed/part_002 lines 215-230) append the child to that node's
children and never touch the scene's _objectsByUUID registry. -/
def Object3D.addUnder (parentU : Nat) (child : NodeT) : NodeT → NodeT
  | .mk u cs =>
    if u == parentU then .mk u (cs ++ [child])
    else .mk u (cs.attach.map fun c => Object3D.addUnder parentU child c.1)
termination_by o => sizeOf o
decreasing_by
  have h := List.sizeOf_lt_of_mem c.2
  simp only [NodeT.mk.sizeOf_spec]
  omega

/-- Unfolding equation for Object3D.addUnder without List.attach. -/
theorem Object3D.addUnder_eq (parentU : Nat) (child : NodeT) (u : Nat)
    (cs : List NodeT) :
    Object3D.addUnder parentU child (.mk u cs) =
      (if u == parentU then .mk u (cs ++ [child])
       else .mk u (cs.map (Object3D.addUnder parentU child))) := by
  conv_lhs => rw [Object3D.addUnder.eq_def]
  show (if u == parentU then NodeT.mk u (cs ++ [child])
      else NodeT.mk u (cs.attach.map fun c => Object3D.addUnder parentU child c.1)) = _
  rw [List.attach_map_val cs (Object3D.addUnder parentU child)]

/-- C8 (amended): the empty scene satisfies the registry invariant —
registry keys are unique and are exactly the uuids reachable from the
root — and the invariant is preserved by Scene.add of a tree with fresh,
duplicate-free uuids and by Scene.remove; moreover Scene.remove removes
from the registry exactly the uuids of the removed child's subtree,
leaving every uuid outside that subtree registered.  (Nodes attached
through Object3D.add bypass the registry; see the counterexample.) -/
theorem c8_registry_tracks_reachable (s : SceneS) (t : NodeT) (u : Nat)
    (hinv : s.inv) (htn : t.uuids.Nodup)
    (hfresh : ∀ v ∈ t.uuids, v ∉ s.reg) :
    SceneS.inv ⟨[], []⟩ ∧
    (Scene.addT s t).inv ∧
    (Scene.removeT s u).inv ∧
    (∀ v, v ∈ (Scene.removeT s u).reg ↔
      v ∈ s.reg ∧ v ∉ Scene.removedUuids s u) := by
  obtain ⟨hregN, hreachN, hrr, hrl⟩ := hinv
  refine ⟨by decide, ?_, ?_⟩
  · -- Scene.add preserves the invariant
    unfold Scene.addT
    by_cases hg : (s.children.any fun c => c.uuid == t.uuid) = true
    · simp only [hg, if_true]
      exact ⟨hregN, hreachN, hrr, hrl⟩
    · rw [Bool.not_eq_true] at hg
      simp only [hg, Bool.false_eq_true, if_false]
      have hreach : SceneS.reachable ⟨s.children ++ [t], registerList t.uuids s.reg⟩ =
          s.reachable ++ t.uuids := by
        unfold SceneS.reachable
        simp
      refine ⟨nodup_registerList t.uuids s.reg hregN, ?_, ?_, ?_⟩
      · rw [hreach]
        refine List.Nodup.append hreachN htn ?_
        intro v hv1 hv2
        exact hfresh v hv2 (hrl v hv1)
      · intro v hv
        rw [hreach, List.mem_append]
        rw [show (⟨s.children ++ [t], registerList t.uuids s.reg⟩ : SceneS).reg =
          registerList t.uuids s.reg from rfl, mem_registerList] at hv
        rcases hv with hv | hv
        · exact Or.inl (hrr v hv)
        · exact Or.inr hv
      · intro v hv
        rw [hreach, List.mem_append] at hv
        rw [show (⟨s.children ++ [t], registerList t.uuids s.reg⟩ : SceneS).reg =
          registerList t.uuids s.reg from rfl, mem_registerList]
        rcases hv with hv | hv
        · exact Or.inl (hrl v hv)
        · exact Or.inr hv
  · -- Scene.remove preserves the invariant and removes exactly the subtree
    rcases hf : s.children.find? (fun c => c.uuid == u) with _ | c
    · simp only [Scene.removeT, Scene.removedUuids, hf]
      exact ⟨⟨hregN, hreachN, hrr, hrl⟩, by simp⟩
    · have hdec := List.find?_eq_some.mp hf
      obtain ⟨pc, as, bs, hsplit, hskip⟩ := hdec
      have herase : s.children.eraseP (fun c => c.uuid == u) = as ++ bs := by
        rw [hsplit, List.eraseP_append_right]
        · simp [List.eraseP_cons, pc]
        · intro b hb
          have := hskip b hb
          simpa using this
      have hreachdec : s.reachable =
          as.flatMap NodeT.uuids ++ (c.uuids ++ bs.flatMap NodeT.uuids) := by
        unfold SceneS.reachable
        rw [hsplit]
        simp
      rw [hreachdec, List.nodup_append] at hreachN
      obtain ⟨hA, hcb, hdisj1⟩ := hreachN
      rw [List.nodup_append] at hcb
      obtain ⟨hcu, hB, hdisj2⟩ := hcb
      have hmem : ∀ v, v ∈ unregisterList c.uuids s.reg ↔
          v ∈ s.reg ∧ v ∉ c.uuids := mem_unregisterList c.uuids s.reg hregN
      simp only [Scene.removeT, Scene.removedUuids, hf]
      have hreach2 : SceneS.reachable
          ⟨s.children.eraseP (fun c => c.uuid == u), unregisterList c.uuids s.reg⟩ =
          as.flatMap NodeT.uuids ++ bs.flatMap NodeT.uuids := by
        unfold SceneS.reachable
        rw [herase]
        simp
      refine ⟨⟨nodup_unregisterList c.uuids s.reg hregN, ?_, ?_, ?_⟩, hmem⟩
      · rw [hreach2]
        refine List.Nodup.append hA hB ?_
        intro v hv1 hv2
        exact hdisj1 hv1 (List.mem_append_right _ hv2)
      · intro v hv
        rw [hreach2, List.mem_append]
        rw [show (⟨s.children.eraseP (fun c => c.uuid == u),
            unregisterList c.uuids s.reg⟩ : SceneS).reg =
          unregisterList c.uuids s.reg from rfl, hmem] at hv
        obtain ⟨hvreg, hvcu⟩ := hv
        have := hrr v hvreg
        rw [hreachdec, List.mem_append, List.mem_append] at this
        rcases this with h1 | h2 | h3
        · exact Or.inl h1
        · exact absurd h2 hvcu
        · exact Or.inr h3
      · intro v hv
        rw [hreach2, List.mem_append] at hv
        rw [show (⟨s.children.eraseP (fun c => c.uuid == u),
            unregisterList c.uuids s.reg⟩ : SceneS).reg =
          unregisterList c.uuids s.reg from rfl, hmem]
        rcases hv with hv | hv
        · refine ⟨hrl v ?_, fun hcu2 => hdisj1 hv (List.mem_append_left _ hcu2)⟩
          rw [hreachdec, List.mem_append]
          exact Or.inl hv
        · refine ⟨hrl v ?_, fun hcu2 => hdisj2 hcu2 hv⟩
          rw [hreachdec, List.mem_append, List.mem_append]
          exact Or.inr (Or.inr hv)

/-- Witness for C8 at a concrete two-node scene, a fresh subtree and
the removal of child 1. -/
theorem c8_registry_tracks_reachable_witness :
    (SceneS.mk [NodeT.mk 1 [NodeT.mk 2 []]] [1, 2]).inv ∧
    (NodeT.mk 3 []).uuids.Nodup ∧
    (∀ v ∈ (NodeT.mk 3 []).uuids, v ∉ (SceneS.mk [NodeT.mk 1 [NodeT.mk 2 []]] [1, 2]).reg) ∧
    (Scene.addT (SceneS.mk [NodeT.mk 1 [NodeT.mk 2 []]] [1, 2]) (NodeT.mk 3 [])).inv ∧
    (∀ v, v ∈ (Scene.removeT (SceneS.mk [NodeT.mk 1 [NodeT.mk 2 []]] [1, 2]) 1).reg ↔
      v ∈ [1, 2] ∧
        v ∉ Scene.removedUuids (SceneS.mk [NodeT.mk 1 [NodeT.mk 2 []]] [1, 2]) 1) := by
  have huu1 : (NodeT.mk 1 [NodeT.mk 2 []]).uuids = [1, 2] := by
    rw [NodeT.uuids_eq]
    simp [NodeT.uuids_eq]
  have huu3 : (NodeT.mk 3 []).uuids = [3] := by
    rw [NodeT.uuids_eq]
    simp
  have hinv : (SceneS.mk [NodeT.mk 1 [NodeT.mk 2 []]] [1, 2]).inv := by
    unfold SceneS.inv SceneS.reachable
    rw [show ([NodeT.mk 1 [NodeT.mk 2 []]].flatMap NodeT.uuids) =
      (NodeT.mk 1 [NodeT.mk 2 []]).uuids ++ [] by simp, huu1]
    decide
  have htn : (NodeT.mk 3 []).uuids.Nodup := by
    rw [huu3]
    decide
  have hfresh : ∀ v ∈ (NodeT.mk 3 []).uuids,
      v ∉ (SceneS.mk [NodeT.mk 1 [NodeT.mk 2 []]] [1, 2]).reg := by
    rw [huu3]
    decide
  have h := c8_registry_tracks_reachable
    (SceneS.mk [NodeT.mk 1 [NodeT.mk 2 []]] [1, 2]) (NodeT.mk 3 []) 1
    hinv htn hfresh
  exact ⟨hinv, htn, hfresh, h.2.1, h.2.2.2⟩

/-- Counterexample to C8 as stated: a node attached with Object3D.add
under an existing scene child is reachable from the root but absent
from the scene's uuid index, because Object3D.add never updates the
registry.  Scene: add node 1 through Scene.add, then attach node 2
under node 1 through Object3D.add. -/
theorem c8_counterexample_object3d_add_bypasses_index :
    2 ∈ (SceneS.mk
        ((Scene.addT (SceneS.mk [] []) (NodeT.mk 1 [])).children.map
          (Object3D.addUnder 1 (NodeT.mk 2 [])))
        (Scene.addT (SceneS.mk [] []) (NodeT.mk 1 [])).reg).reachable ∧
    2 ∉ (SceneS.mk
        ((Scene.addT (SceneS.mk [] []) (NodeT.mk 1 [])).children.map
          (Object3D.addUnder 1 (NodeT.mk 2 [])))
        (Scene.addT (SceneS.mk [] []) (NodeT.mk 1 [])).reg).reg := by
  have hadd : Scene.addT (SceneS.mk [] []) (NodeT.mk 1 []) =
      SceneS.mk [NodeT.mk 1 []] [1] := by
    unfold Scene.addT
    rw [NodeT.uuids_eq]
    simp [registerList, regSet]
  have hunder : Object3D.addUnder 1 (NodeT.mk 2 []) (NodeT.mk 1 []) =
      NodeT.mk 1 [NodeT.mk 2 []] := by
    rw [Object3D.addUnder_eq]
    simp
  rw [hadd]
  constructor
  · show 2 ∈ ([NodeT.mk 1 []].map (Object3D.addUnder 1 (NodeT.mk 2 []))).flatMap NodeT.uuids
    rw [List.map_cons, hunder]
    simp [NodeT.uuids_eq]
  · decide

end DSRT
